import Mathlib

/-!
Verification of the Mail-ZiLLA multi-source intelligence engine.

Shallow embedding, in Lean 4, of the confidence scoring, deduplication,
consensus, health-monitoring, resource-strategy and deception-detection
code of the repository, together with theorems settling the spec claims.
Numeric code is embedded over `ℚ` (Python floats carry exact decimal
literals here; no rounding is relevant to any claim), timestamps over `ℤ`
(seconds), and fallible code over `Except`/`Option`.
-/

namespace MailZilla

/-! ## ResourceController (`src/core/resource_orchestrator.py`) -/

/-- `ResourceLevel` enum of `resource_orchestrator.py`. -/
inductive ResourceLevel
  | critical
  | low
  | medium
  | high
  | excellent
  deriving DecidableEq, Repr

/-- Ordinal rank of a tier, for the ordering Critical < Low < Medium < High < Excellent. -/
def ResourceLevel.rank : ResourceLevel → ℕ
  | .critical => 0
  | .low => 1
  | .medium => 2
  | .high => 3
  | .excellent => 4

/-- The fields of `SystemResources` used by `determine_resource_strategy`. -/
structure SystemResources where
  memory_usage : ℚ
  cpu_usage : ℚ
  network_speed : ℚ
  battery_level : ℚ
  deriving DecidableEq, Repr

/-- `ResourceStrategy` dataclass of `resource_orchestrator.py`. -/
structure ResourceStrategy where
  level : ResourceLevel
  max_concurrent_tasks : ℕ
  agent_timeout : ℕ
  proxy_usage : String
  data_quality : String
  caching_strategy : String
  deriving DecidableEq, Repr

/-- `memory_score = max(0, 100 - resources.memory_usage)`. -/
def memoryScore (r : SystemResources) : ℚ := max 0 (100 - r.memory_usage)

/-- `cpu_score = max(0, 100 - resources.cpu_usage)`. -/
def cpuScore (r : SystemResources) : ℚ := max 0 (100 - r.cpu_usage)

/-- `network_score = min(100, resources.network_speed * 2)`. -/
def networkScore (r : SystemResources) : ℚ := min 100 (r.network_speed * 2)

/-- `battery_score = resources.battery_level`. -/
def batteryScore (r : SystemResources) : ℚ := r.battery_level

/-- The weighted overall score of `determine_resource_strategy`:
`memory_score*0.3 + cpu_score*0.3 + network_score*0.3 + battery_score*0.1`. -/
def overallScore (m c n b : ℚ) : ℚ :=
  m * (3/10) + c * (3/10) + n * (3/10) + b * (1/10)

/-- The threshold ladder of `determine_resource_strategy` mapping the
overall score to a `ResourceLevel` (≥80 excellent, ≥60 high, ≥40 medium,
≥20 low, otherwise critical). -/
def levelOfScore (s : ℚ) : ResourceLevel :=
  if s ≥ 80 then .excellent
  else if s ≥ 60 then .high
  else if s ≥ 40 then .medium
  else if s ≥ 20 then .low
  else .critical

/-- `_create_strategy_for_level`: the per-tier strategy table. -/
def createStrategyForLevel : ResourceLevel → ResourceStrategy
  | .excellent =>
      ⟨.excellent, 8, 30, "aggressive", "comprehensive", "aggressive"⟩
  | .high =>
      ⟨.high, 6, 25, "balanced", "comprehensive", "balanced"⟩
  | .medium =>
      ⟨.medium, 4, 20, "balanced", "standard", "balanced"⟩
  | .low =>
      ⟨.low, 2, 15, "minimal", "basic", "minimal"⟩
  | .critical =>
      ⟨.critical, 1, 10, "minimal", "basic", "minimal"⟩

/-- `determine_resource_strategy(resources)`: derive the sub-scores, combine
them with the fixed weights, pick the tier and build its strategy. -/
def determine_resource_strategy (r : SystemResources) : ResourceStrategy :=
  createStrategyForLevel
    (levelOfScore
      (overallScore (memoryScore r) (cpuScore r) (networkScore r) (batteryScore r)))

lemma levelOfScore_rank_mono {s s' : ℚ} (h : s ≤ s') :
    (levelOfScore s).rank ≤ (levelOfScore s').rank := by
  unfold levelOfScore
  split_ifs <;> simp [ResourceLevel.rank] <;> linarith

lemma overallScore_mono {m c n b m' c' n' b' : ℚ}
    (hm : m ≤ m') (hc : c ≤ c') (hn : n ≤ n') (hb : b ≤ b') :
    overallScore m c n b ≤ overallScore m' c' n' b' := by
  unfold overallScore
  nlinarith

end MailZilla

namespace MailZilla

/-! ## Decision phase (`src/core/ai_hierarchy.py`) -/

/-- One entry of the `weighted_decisions` list built by `_aggregate_decisions`:
a candidate outcome together with its contributing agent's id and rolling
success-rate weight, in agent-registration order. -/
structure WeightedDecision (D : Type) where
  agent_id : String
  decision : D
  weight : ℚ
  deriving DecidableEq, Repr

/-- The dictionary returned by `_find_consensus_decision`. -/
structure ConsensusResult (D : Type) where
  decision : Option D
  confidence : ℚ
  supporting_evidence : List (WeightedDecision D)
  dissenting_opinions : List (WeightedDecision D)
  quality_score : ℚ
  deriving DecidableEq, Repr

/-- `AIDecision` dataclass of `ai_hierarchy.py` (the fields used by
`_aggregate_decisions`; `decision_tree` carries no claim-relevant data). -/
structure AIDecision (D : Type) where
  primary_decision : Option D
  confidence : ℚ
  supporting_evidence : List (WeightedDecision D)
  dissenting_opinions : List (WeightedDecision D)
  quality_score : ℚ
  deriving DecidableEq, Repr

/-- Total weight of the group of candidates structurally equal to `d`
(`group_weight = sum(d['weight'] for d in decisions)` for the group keyed by
the md5 of the decision's structural representation). -/
def groupWeight [DecidableEq D] (l : List (WeightedDecision D)) (d : D) : ℚ :=
  ((l.filter (fun wd => wd.decision = d)).map (fun wd => wd.weight)).sum

/-- `total_possible_weight = sum(d['weight'] for d in weighted_decisions)`. -/
def totalWeight (l : List (WeightedDecision D)) : ℚ :=
  (l.map (fun wd => wd.weight)).sum

/-- One iteration of the `best_group`/`max_weight` loop of
`_find_consensus_decision`: `if group_weight > max_weight: max_weight =
group_weight; best_group = decisions`. -/
def updateBest (g : D → ℚ) (d : D) (acc : Option D × ℚ) : Option D × ℚ :=
  if g d > acc.2 then (some d, g d) else acc

/-- The group-selection loop of `_find_consensus_decision`: groups are
visited in first-occurrence (insertion) order of `decision_groups`; the
running best starts at `(None, 0)` and is replaced only by a strictly
greater group weight. Visiting the head's group and then the groups of the
tail with the head's decision filtered out reproduces the dict iteration. -/
def selectBestAux [DecidableEq D] (g : D → ℚ) :
    List (WeightedDecision D) → Option D × ℚ → Option D × ℚ
  | [], acc => acc
  | wd :: rest, acc =>
      selectBestAux g (rest.filter (fun x => ¬ x.decision = wd.decision))
        (updateBest g wd.decision acc)
termination_by l _ => l.length
decreasing_by
  simp only [List.length_cons]
  exact Nat.lt_succ_of_le (List.length_filter_le _ _)

/-- The winning group (if any) and its total weight, as computed by
`_find_consensus_decision`'s `best_group`/`max_weight` loop. -/
def selectBest [DecidableEq D] (l : List (WeightedDecision D)) : Option D × ℚ :=
  selectBestAux (groupWeight l) l (none, 0)

/-- `_find_consensus_decision(weighted_decisions)`. -/
def find_consensus_decision [DecidableEq D] (l : List (WeightedDecision D)) :
    ConsensusResult D :=
  match selectBest l with
  | (none, _) => ⟨none, 0, [], [], 0⟩
  | (some b, maxWeight) =>
      let total := totalWeight l
      let confidence := if 0 < total then maxWeight / total else 0
      let supporting := l.filter (fun wd => wd.decision = b)
      let dissenting := l.filter (fun wd => ¬ wd.decision = b)
      ⟨some b, confidence, supporting, dissenting,
        confidence * supporting.length / l.length⟩

/-- `_aggregate_decisions(agent_decisions)`: empty input returns the
all-default `AIDecision`; otherwise each agent's decision is weighted by
its rolling success rate (`metrics`, defaulting handled by the lookup) and
the consensus result is repackaged. -/
def aggregate_decisions [DecidableEq D] (metrics : String → ℚ)
    (agent_decisions : List (String × D)) : AIDecision D :=
  match agent_decisions with
  | [] => ⟨none, 0, [], [], 0⟩
  | _ =>
      let weighted := agent_decisions.map (fun p => ⟨p.1, p.2, metrics p.1⟩)
      let c := find_consensus_decision weighted
      ⟨c.decision, c.confidence, c.supporting_evidence, c.dissenting_opinions,
        c.quality_score⟩

/-- `precedesB b d l = true` when some candidate with decision `b` is
registered strictly before every candidate with decision `d` in `l`
(the earliest-registered agent contributing `b` comes first). -/
def precedesB [DecidableEq D] (b d : D) : List (WeightedDecision D) → Bool
  | [] => false
  | wd :: rest =>
      if wd.decision = b then true
      else if wd.decision = d then false
      else precedesB b d rest

/-! ## Profiles (`src/core/social_agent.py`, `src/core/schemas.py`) -/

/-- `PlatformCategory` enum of `social_agent.py`. -/
inductive PlatformCategory
  | professional
  | social_media
  | messaging
  | code
  | emerging
  | specialized
  deriving DecidableEq, Repr

/-- Python truthiness of an optional string: `None` and the empty string
are falsy, any other string is truthy. -/
def optTruthy : Option String → Bool
  | none => false
  | some s => !(s == "")

/-- The `ProfileData` dataclass (the fields read by the embedded scoring
and deduplication functions). A profile's `last_activity` timestamp is
represented by its age `(datetime.now() - last_activity).days`, which is
negative for a timestamp in the future. Counter fields, raw payload and
privacy metadata are not read by any embedded function. -/
structure ProfileData where
  platform : String
  platform_category : PlatformCategory
  profile_url : String
  username : Option String
  full_name : Option String
  email : Option String
  phone : Option String
  location : Option String
  company : Option String
  job_title : Option String
  profile_picture : Option String
  last_activity_days_ago : Option ℤ
  bio : Option String
  is_verified : Bool
  deriving DecidableEq, Repr

/-! ## LinkedIn deduplication (`src/agents/linkedin_agent.py`) -/

/-- The deduplication key of `_deduplicate_profiles`: the profile URL when
truthy, otherwise the lowercased full name when truthy, otherwise no key
(such a profile is never appended to the output). -/
def profileKey (p : ProfileData) : Option String :=
  if p.profile_url ≠ "" then some p.profile_url
  else
    match p.full_name with
    | some n => if n ≠ "" then some n.toLower else none
    | none => none

/-- The loop of `_deduplicate_profiles`, with `seen` playing the role of
`seen_urls` (one set mixing URLs and lowercased name keys): a profile with
an unseen key is appended and its key recorded; a profile with a seen key,
or with no key, is dropped. -/
def dedupAux (seen : List String) : List ProfileData → List ProfileData
  | [] => []
  | p :: rest =>
      match profileKey p with
      | none => dedupAux seen rest
      | some k =>
          if k ∈ seen then dedupAux seen rest
          else p :: dedupAux (k :: seen) rest

/-- `_deduplicate_profiles(profiles)`. -/
def deduplicate_profiles (profiles : List ProfileData) : List ProfileData :=
  dedupAux [] profiles

/-! ## HealthMonitor / supervisor (`src/core/agent_generator.py`) -/

/-- `AgentStatus` enum of `agent_generator.py`. -/
inductive AgentStatus
  | healthy
  | degraded
  | failing
  | offline
  deriving DecidableEq, Repr

/-- Ordinal rank along Healthy → Degraded → Failing → Offline. -/
def AgentStatus.rank : AgentStatus → ℕ
  | .healthy => 0
  | .degraded => 1
  | .failing => 2
  | .offline => 3

/-- `AgentPerformance` dataclass. `last_success` is an epoch timestamp in
seconds (`None` when absent). -/
structure AgentPerformance where
  success_rate : ℚ
  avg_response_time : ℚ
  error_rate : ℚ
  last_success : Option ℤ
  total_requests : ℕ
  deriving DecidableEq, Repr

/-- `GeneratedAgent` dataclass. Its fields are `agent_id`, `platform`,
`agent_class`, `performance`, `status` and `config_hash`; note that it has
no `config` field (`_replace_failing_agent` nevertheless reads
`old_agent.config`, which raises `AttributeError` in Python). The opaque
`agent_class` carries no claim-relevant data and is omitted. -/
structure GeneratedAgent where
  agent_id : String
  platform : String
  performance : AgentPerformance
  status : AgentStatus
  config_hash : String
  deriving DecidableEq, Repr

/-- `_check_agent_health(agent)` over the agent's performance at time
`now` (seconds): unhealthy when `success_rate <
performance_thresholds['success_rate_min'] = 0.7`, or `avg_response_time >
response_time_max = 30.0`, or `error_rate > error_rate_max = 0.3`, or when
a recorded `last_success` is more than one hour old while
`total_requests > 0`. -/
def check_agent_health (now : ℤ) (p : AgentPerformance) : Bool :=
  if p.success_rate < 7/10 ∨ p.avg_response_time > 30 ∨ p.error_rate > 3/10 then
    false
  else
    match p.last_success with
    | some t => if now - t > 3600 ∧ 0 < p.total_requests then false else true
    | none => true

/-- The optimistic-prior `AgentPerformance` that `generate_agent`
constructs: `success_rate=1.0, avg_response_time=0.0, error_rate=0.0,
last_success=datetime.now(), total_requests=0`. -/
def freshPerformance (now : ℤ) : AgentPerformance :=
  ⟨1, 0, 0, some now, 0⟩

/-- `generate_agent(platform, config)`: a fresh `GeneratedAgent` with
optimistic metrics and `HEALTHY` status (the md5-based unique id is
modelled by a platform-derived id, which no claim inspects). -/
def generate_agent (platform chash : String) (now : ℤ) : GeneratedAgent :=
  ⟨platform ++ "_agent", platform, freshPerformance now, .healthy, chash⟩

/-- One agent's treatment by a `monitor_agent_health` cycle: the status is
recomputed from `_check_agent_health`; a failing agent is queued for
`_replace_failing_agent`, whose body evaluates `old_agent.config` before
anything else — an attribute the `GeneratedAgent` dataclass does not
define — so the `AttributeError` is caught by the surrounding `except`,
only an error is logged, and the old agent object stays in
`active_agents` with its old metrics and `FAILING` status. -/
def monitorStep (now : ℤ) (a : GeneratedAgent) : GeneratedAgent :=
  if check_agent_health now a.performance then { a with status := .healthy }
  else { a with status := .failing }

/-- `monitor_agent_health` over the `active_agents` map (association list
in insertion order). -/
def monitor_agent_health (now : ℤ) (agents : List (String × GeneratedAgent)) :
    List (String × GeneratedAgent) :=
  agents.map (fun e => (e.1, monitorStep now e.2))

/-- The health-state invariant of every reachable monitor state: an agent
is `HEALTHY`, or it is `FAILING` and its (never-updated) metrics fail
`_check_agent_health` at the current time. `DEGRADED` and `OFFLINE` are
never assigned by `agent_generator.py`. -/
def ReachableHealth (now : ℤ) (a : GeneratedAgent) : Prop :=
  a.status = .healthy ∨
    (a.status = .failing ∧ check_agent_health now a.performance = false)

/-! ## Confidence scoring (`src/core/base_agent.py`,
`src/core/social_agent.py`) -/

/-- The keys of the `profile_data` dict read by
`BaseAgent._calculate_confidence_score`; `last_activity` is represented by
its age in days (negative for a future timestamp, exactly as
`(datetime.now() - last_activity).days` is). -/
structure BaseProfileInfo where
  email_verified : Bool
  full_name : Option String
  location : Option String
  company : Option String
  profile_picture : Option String
  last_activity_days_ago : Option ℤ
  deriving DecidableEq, Repr

/-- `recency_score = max(0, 1 - days_ago / 365)` of
`_calculate_confidence_score` — clamped below at 0 but not above. -/
def recencyScore (d : ℤ) : ℚ := max 0 (1 - (d : ℚ) / 365)

/-- The `confidence_factors` list built by `_calculate_confidence_score`:
0.9 when the email is verified, 0.7 when a full name is present, the
4-field completeness ratio times 0.6 (always appended), and the recency
score times 0.5 when a last-activity timestamp is present. -/
def confidenceFactors (p : BaseProfileInfo) : List ℚ :=
  (if p.email_verified then [9/10] else []) ++
    (if optTruthy p.full_name then [7/10] else []) ++
    [(([p.full_name, p.location, p.company, p.profile_picture].countP optTruthy : ℚ)
        / 4) * (6/10)] ++
    (match p.last_activity_days_ago with
      | some d => [recencyScore d * (5/10)]
      | none => [])

/-- `_calculate_confidence_score(profile_data)`: the mean of the collected
confidence factors, with the 0.3 fallback for an empty factor list. -/
def calculate_confidence_score (p : BaseProfileInfo) : ℚ :=
  if (confidenceFactors p).length = 0 then 3/10
  else (confidenceFactors p).sum / (confidenceFactors p).length

/-- The enterprise-tuned `platform_weights` dict of
`_calculate_platform_specific_confidence`. -/
def platformWeights : List (String × ℚ) :=
  [("linkedin", 95/100), ("xing", 90/100), ("glassdoor", 85/100),
   ("microsoft_teams", 88/100), ("slack", 86/100), ("google_chat", 84/100),
   ("facebook", 82/100), ("instagram", 80/100), ("twitter", 78/100),
   ("reddit", 76/100), ("telegram", 75/100), ("whatsapp", 72/100),
   ("signal", 70/100), ("wire", 68/100), ("github", 88/100),
   ("gitlab", 85/100), ("stackoverflow", 83/100), ("onlyfans", 65/100),
   ("fetlife", 60/100), ("tumblr", 70/100)]

/-- `platform_weights.get(profile.platform, 0.65)`. -/
def platformWeight (platform : String) : ℚ :=
  match platformWeights.find? (fun q => q.1 = platform) with
  | some q => q.2
  | none => 65/100

/-- `_calculate_enhanced_data_completeness(profile)`: the 8-field filled
ratio, plus a 0.2 boost for professional-category profiles carrying both a
full name and a company, capped by `min(1.0, ...)`. -/
def enhanced_data_completeness (p : ProfileData) : ℚ :=
  let base : ℚ :=
    ([p.full_name, p.email, p.phone, p.location, p.company,
      p.job_title, p.bio, p.profile_picture].countP optTruthy : ℚ) / 8
  let boosted : ℚ :=
    if p.platform_category = PlatformCategory.professional ∧
        optTruthy p.full_name ∧ optTruthy p.company then base + 2/10
    else base
  min 1 boosted

/-- Modelled from the spec: `_calculate_activity_recency`, called by
`_calculate_platform_specific_confidence`, is not included in src; the
spec prescribes a recency factor with linear decay to 0 over 365 days
since last activity. -/
def activityRecencySpec (d : ℤ) : ℚ := max 0 (1 - (d : ℚ) / 365)

/-- The `confidence_factors` list of
`_calculate_platform_specific_confidence`: platform reliability weight,
enhanced completeness times 0.8, recency times 0.7 when last activity is
present, 0.8 when verified, picture-quality score times 0.6 when a picture
is present, and the platform-specific boost. The picture-quality score
(`_assess_profile_picture_quality`, truncated in src) and the boost
(`_get_platform_specific_boost`, not included in src) enter as the inputs
`pictureScore` and `platformBoost`. -/
def platformConfidenceFactors (pictureScore platformBoost : ℚ) (p : ProfileData) :
    List ℚ :=
  [platformWeight p.platform] ++
    [enhanced_data_completeness p * (8/10)] ++
    (match p.last_activity_days_ago with
      | some d => [activityRecencySpec d * (7/10)]
      | none => []) ++
    (if p.is_verified then [8/10] else []) ++
    (if optTruthy p.profile_picture then [pictureScore * (6/10)] else []) ++
    [platformBoost]

/-- `_calculate_platform_specific_confidence(profile)`: the mean of the
collected factors (the list is never empty: the platform weight, the
completeness factor and the boost are always appended). -/
def calculate_platform_specific_confidence (pictureScore platformBoost : ℚ)
    (p : ProfileData) : ℚ :=
  (platformConfidenceFactors pictureScore platformBoost p).sum /
    (platformConfidenceFactors pictureScore platformBoost p).length

/-! ## Enterprise deception step (`src/core/social_agent.py`,
`process_email_enterprise`) -/

/-- The fields of the enterprise correlation result touched by the
deception-detection step of `process_email_enterprise`. -/
structure EnterpriseResult where
  confidence_score : ℚ
  deception_detected : Bool
  deriving DecidableEq, Repr

/-- The deception-adjustment step of `process_email_enterprise`: when the
RiskScorer's `overall_risk_score` exceeds 0.7, the confidence score is
multiplied by 0.8 and `risk_assessment['deception_detected']` is set;
otherwise the result passes through unchanged. -/
def apply_deception_adjustment (overall_risk_score : ℚ) (r : EnterpriseResult) :
    EnterpriseResult :=
  if overall_risk_score > 7/10 then ⟨r.confidence_score * (8/10), true⟩
  else r

/-! ## RiskScorer / deception detection (`src/core/deception_detector.py`) -/

/-- `DeceptionType` enum. -/
inductive DeceptionType
  | shared_account
  | timezone_manipulation
  | identity_fragmentation
  | profile_spoofing
  | activity_pattern_anomaly
  | hardware_spoofing
  | behavioral_inconsistency
  deriving DecidableEq, Repr

/-- `DeceptionIndicator` dataclass. -/
structure DeceptionIndicator where
  dtype : DeceptionType
  confidence : ℚ
  evidence : List String
  severity : String
  impact_score : ℚ
  deriving DecidableEq, Repr

/-- `DeceptionAnalysis` dataclass. -/
structure DeceptionAnalysis where
  overall_risk_score : ℚ
  deception_indicators : List DeceptionIndicator
  recommended_actions : List String
  confidence_level : String
  anomaly_count : ℕ
  deriving DecidableEq, Repr

/-- Modelled from the spec: `_calculate_severity` is referenced by every
detector but its body is not included in src; the spec only fixes that a
RiskIndicator carries a severity tier, so the tier ladder over the
combined confidence stands in for it (no claim depends on its values). -/
def calculateSeverity (confidence : ℚ) : String :=
  if confidence ≥ 8/10 then "CRITICAL"
  else if confidence ≥ 6/10 then "HIGH"
  else if confidence ≥ 4/10 then "MEDIUM"
  else "LOW"

/-- `_detect_shared_accounts`, over the outcomes of its four sub-analyses
(`suspicious_patterns` of the username analysis,
`multiple_behavioral_profiles` of the activity analysis,
`style_variations` of the content analysis, `geographic_spread` of the
geographic analysis): evidence accumulates per truthy outcome, confidence
adds 0.3/0.4/0.3/0.2, and one indicator of type SHARED_ACCOUNT with
confidence capped at 0.95 and impact 0.8 is emitted iff evidence is
non-empty and confidence exceeds 0.5: `sharedAccountEvidence`. -/
def sharedAccountEvidence (suspiciousPatterns : List String)
    (multipleBehavioralProfiles : Bool) (styleVariations : ℕ)
    (geographicSpread : ℕ) : List String :=
  (if suspiciousPatterns ≠ [] then suspiciousPatterns else []) ++
    (if multipleBehavioralProfiles then
      ["Multiple distinct behavioral patterns detected"] else []) ++
    (if styleVariations ≠ 0 then ["Multiple writing styles detected"] else []) ++
    (if geographicSpread ≠ 0 then
      ["Activity from distinct geographic regions"] else [])

/-- The confidence accumulated by `_detect_shared_accounts`
(0.3 + 0.4 + 0.3 + 0.2 per triggered sub-analysis). -/
def sharedAccountConfidence (suspiciousPatterns : List String)
    (multipleBehavioralProfiles : Bool) (styleVariations : ℕ)
    (geographicSpread : ℕ) : ℚ :=
  (if suspiciousPatterns ≠ [] then 3/10 else 0) +
    (if multipleBehavioralProfiles then 4/10 else 0) +
    (if styleVariations ≠ 0 then 3/10 else 0) +
    (if geographicSpread ≠ 0 then 2/10 else 0)

/-- `_detect_shared_accounts`: emits one SHARED_ACCOUNT indicator, with
confidence capped at 0.95 and impact 0.8, iff the accumulated evidence is
non-empty and the accumulated confidence exceeds 0.5. -/
def detect_shared_accounts (suspiciousPatterns : List String)
    (multipleBehavioralProfiles : Bool) (styleVariations : ℕ)
    (geographicSpread : ℕ) : List DeceptionIndicator :=
  if sharedAccountEvidence suspiciousPatterns multipleBehavioralProfiles
        styleVariations geographicSpread ≠ [] ∧
      sharedAccountConfidence suspiciousPatterns multipleBehavioralProfiles
        styleVariations geographicSpread > 1/2 then
    [⟨.shared_account,
      min (sharedAccountConfidence suspiciousPatterns multipleBehavioralProfiles
        styleVariations geographicSpread) (95/100),
      sharedAccountEvidence suspiciousPatterns multipleBehavioralProfiles
        styleVariations geographicSpread,
      calculateSeverity (sharedAccountConfidence suspiciousPatterns
        multipleBehavioralProfiles styleVariations geographicSpread), 8/10⟩]
  else []

/-- `_detect_timezone_manipulation`, over the outcomes of its four checks
(system-vs-IP timezone mismatch, `anomalous_activity` of the
activity-vs-timezone analysis, the consistency flag of the
timezone-consistency check, DST anomalies): confidence adds
0.6/0.4/0.3/0.2, indicator of type TIMEZONE_MANIPULATION with confidence
capped at 0.95 and impact 0.6 emitted iff evidence non-empty and
confidence above 0.5: `timezoneEvidence`. -/
def timezoneEvidence (tzMismatch : Bool) (anomalousActivity : List String)
    (tzConsistent : Bool) (dstAnomalies : Bool) : List String :=
  (if tzMismatch then ["Timezone mismatch between system and IP"] else []) ++
    (if anomalousActivity ≠ [] then anomalousActivity else []) ++
    (if ¬ tzConsistent then ["Multiple timezone indicators detected"] else []) ++
    (if dstAnomalies then ["Daylight Saving Time anomalies detected"] else [])

/-- The confidence accumulated by `_detect_timezone_manipulation`
(0.6 + 0.4 + 0.3 + 0.2 per triggered check). -/
def timezoneConfidence (tzMismatch : Bool) (anomalousActivity : List String)
    (tzConsistent : Bool) (dstAnomalies : Bool) : ℚ :=
  (if tzMismatch then 6/10 else 0) +
    (if anomalousActivity ≠ [] then 4/10 else 0) +
    (if ¬ tzConsistent then 3/10 else 0) +
    (if dstAnomalies then 2/10 else 0)

/-- `_detect_timezone_manipulation`: emits one TIMEZONE_MANIPULATION
indicator, with confidence capped at 0.95 and impact 0.6, iff the
accumulated evidence is non-empty and the accumulated confidence exceeds
0.5. -/
def detect_timezone_manipulation (tzMismatch : Bool)
    (anomalousActivity : List String) (tzConsistent : Bool)
    (dstAnomalies : Bool) : List DeceptionIndicator :=
  if timezoneEvidence tzMismatch anomalousActivity tzConsistent dstAnomalies ≠ [] ∧
      timezoneConfidence tzMismatch anomalousActivity tzConsistent dstAnomalies
        > 1/2 then
    [⟨.timezone_manipulation,
      min (timezoneConfidence tzMismatch anomalousActivity tzConsistent dstAnomalies)
        (95/100),
      timezoneEvidence tzMismatch anomalousActivity tzConsistent dstAnomalies,
      calculateSeverity
        (timezoneConfidence tzMismatch anomalousActivity tzConsistent dstAnomalies),
      6/10⟩]
  else []

/-- `_detect_dst_anomalies`: its body is an acknowledged placeholder that
always returns `False`. -/
def detect_dst_anomalies : Bool := false

/-- `_detect_identity_fragmentation`, over the outcomes of its three
sub-analyses (`excessive_variations` of the name-variation analysis,
`incomplete_pattern` of the completeness analysis,
`compartmentalized_identity` of the specialization analysis): confidence
adds 0.4/0.3/0.3, indicator of type IDENTITY_FRAGMENTATION with
confidence capped at 0.9 and impact 0.7 emitted iff evidence non-empty
and confidence above 0.4: `fragmentationEvidence`. -/
def fragmentationEvidence (excessiveVariations : Bool)
    (incompletePattern : Bool) (compartmentalized : Bool) : List String :=
  (if excessiveVariations then ["Excessive name variations"] else []) ++
    (if incompletePattern then
      ["Strategic profile incompleteness detected"] else []) ++
    (if compartmentalized then
      ["Compartmentalized identity across platforms"] else [])

/-- The confidence accumulated by `_detect_identity_fragmentation`
(0.4 + 0.3 + 0.3 per triggered sub-analysis). -/
def fragmentationConfidence (excessiveVariations : Bool)
    (incompletePattern : Bool) (compartmentalized : Bool) : ℚ :=
  (if excessiveVariations then 4/10 else 0) +
    (if incompletePattern then 3/10 else 0) +
    (if compartmentalized then 3/10 else 0)

/-- `_detect_identity_fragmentation`: emits one IDENTITY_FRAGMENTATION
indicator, with confidence capped at 0.9 and impact 0.7, iff the
accumulated evidence is non-empty and the accumulated confidence exceeds
0.4. -/
def detect_identity_fragmentation (excessiveVariations : Bool)
    (incompletePattern : Bool) (compartmentalized : Bool) :
    List DeceptionIndicator :=
  if fragmentationEvidence excessiveVariations incompletePattern compartmentalized
        ≠ [] ∧
      fragmentationConfidence excessiveVariations incompletePattern compartmentalized
        > 2/5 then
    [⟨.identity_fragmentation,
      min (fragmentationConfidence excessiveVariations incompletePattern
        compartmentalized) (9/10),
      fragmentationEvidence excessiveVariations incompletePattern compartmentalized,
      calculateSeverity (fragmentationConfidence excessiveVariations
        incompletePattern compartmentalized), 7/10⟩]
  else []

/-- `_detect_profile_spoofing`: stub, returns no indicators. -/
def detect_profile_spoofing : List DeceptionIndicator := []

/-- `_detect_activity_anomalies`: stub, returns no indicators. -/
def detect_activity_anomalies : List DeceptionIndicator := []

/-- `_detect_hardware_spoofing`: stub, returns no indicators. -/
def detect_hardware_spoofing : List DeceptionIndicator := []

/-- `_detect_behavioral_inconsistencies`: stub, returns no indicators. -/
def detect_behavioral_inconsistencies : List DeceptionIndicator := []

/-- The semantics of `await asyncio.gather(*detection_tasks)` as written
in `analyze_digital_identity` — without `return_exceptions=True`: each
detector outcome is either its indicator list or a raised exception; if
any detector raises, the exception propagates out of the gather and
aborts the whole analysis, discarding every other detector's output. -/
def gatherStrict : List (Except String (List DeceptionIndicator)) →
    Except String (List DeceptionIndicator)
  | [] => .ok []
  | r :: rest =>
      match r with
      | .error e => .error e
      | .ok xs =>
          match gatherStrict rest with
          | .error e => .error e
          | .ok ys => .ok (xs ++ ys)

/-- Modelled from the spec: `_calculate_overall_risk` is truncated out of
src; the spec prescribes a monotone combination — a weighted sum of
emitted indicators' confidence × impact weight, capped at 1.0. -/
def calculate_overall_risk (inds : List DeceptionIndicator) : ℚ :=
  min 1 ((inds.map (fun i => i.confidence * i.impact_score)).sum)

/-- Modelled from the spec: `_generate_recommendations` is truncated out
of src; it produces one recommended action per emitted indicator. -/
def generate_recommendations (inds : List DeceptionIndicator) : List String :=
  inds.map (fun _ => "review identity evidence")

/-- Modelled from the spec: `_determine_confidence_level` is truncated
out of src; it summarises the indicator count as a level label. -/
def determine_confidence_level (inds : List DeceptionIndicator) : String :=
  if 3 ≤ inds.length then "HIGH" else "MODERATE"

/-- `analyze_digital_identity`: gathers the seven detectors' outcomes with
the plain-gather semantics and, on success, assembles the
`DeceptionAnalysis` from the concatenated indicators. -/
def analyze_digital_identity
    (results : List (Except String (List DeceptionIndicator))) :
    Except String DeceptionAnalysis :=
  match gatherStrict results with
  | .error e => .error e
  | .ok indicators =>
      .ok ⟨calculate_overall_risk indicators, indicators,
        generate_recommendations indicators,
        determine_confidence_level indicators, indicators.length⟩

/-- The isolation semantics the spec requires (a detector's failure must
not block the others): collect the successful detectors' indicator lists
in order and drop failures — what `asyncio.gather(...,
return_exceptions=True)` followed by exception filtering yields. -/
def gatherIsolating (results : List (Except String (List DeceptionIndicator))) :
    List DeceptionIndicator :=
  results.foldr
    (fun r acc =>
      match r with
      | .ok xs => xs ++ acc
      | .error _ => acc) []

/-- **C7.** The ResourceController's tier selection is monotone: if none of
the memory, CPU, network and battery sub-scores fed into the weighted
overall score decreases (in particular if exactly one increases and the
others are held fixed), the selected strategy tier never gets strictly
lower under Critical < Low < Medium < High < Excellent. -/
theorem resource_tier_monotone (m c n b m' c' n' b' : ℚ)
    (hm : m ≤ m') (hc : c ≤ c') (hn : n ≤ n') (hb : b ≤ b') :
    (levelOfScore (overallScore m c n b)).rank ≤
      (levelOfScore (overallScore m' c' n' b')).rank :=
  levelOfScore_rank_mono (overallScore_mono hm hc hn hb)

/-- Witness for `resource_tier_monotone`: raising the CPU sub-score from 40
to 90 (others fixed at 50/50/100) moves the tier from Medium up, never down. -/
theorem resource_tier_monotone_witness :
    (50 : ℚ) ≤ 50 ∧ (40 : ℚ) ≤ 90 ∧ (50 : ℚ) ≤ 50 ∧ (100 : ℚ) ≤ 100 ∧
      (levelOfScore (overallScore 50 40 50 100)).rank ≤
        (levelOfScore (overallScore 50 90 50 100)).rank :=
  ⟨by norm_num, by norm_num, by norm_num, by norm_num,
    resource_tier_monotone 50 40 50 100 50 90 50 100
      (by norm_num) (by norm_num) (by norm_num) (by norm_num)⟩

lemma updateBest_snd_ge (g : D → ℚ) (d : D) (acc : Option D × ℚ) :
    acc.2 ≤ (updateBest g d acc).2 := by
  unfold updateBest; split
  · exact le_of_lt (by assumption)
  · exact le_rfl

lemma updateBest_le (g : D → ℚ) (d : D) (acc : Option D × ℚ) :
    g d ≤ (updateBest g d acc).2 := by
  unfold updateBest; split
  · exact le_rfl
  · exact le_of_not_lt (by assumption)

lemma updateBest_cases (g : D → ℚ) (d : D) (acc : Option D × ℚ) :
    updateBest g d acc = acc ∨
      (updateBest g d acc = (some d, g d) ∧ acc.2 < g d) := by
  unfold updateBest; split
  · right; exact ⟨rfl, by assumption⟩
  · left; rfl

lemma selectBestAux_snd_ge [DecidableEq D] (g : D → ℚ) (l : List (WeightedDecision D))
    (acc : Option D × ℚ) : acc.2 ≤ (selectBestAux g l acc).2 := by
  induction l, acc using selectBestAux.induct g with
  | case1 acc => simp [selectBestAux]
  | case2 wd rest acc ih =>
      rw [selectBestAux]
      exact le_trans (updateBest_snd_ge g wd.decision acc) ih

lemma selectBestAux_le [DecidableEq D] (g : D → ℚ) (l : List (WeightedDecision D))
    (acc : Option D × ℚ) :
    ∀ x ∈ l, g x.decision ≤ (selectBestAux g l acc).2 := by
  induction l, acc using selectBestAux.induct g with
  | case1 acc => intro x hx; simp at hx
  | case2 wd rest acc ih =>
      intro x hx
      rw [selectBestAux]
      rcases List.mem_cons.mp hx with hx0 | hxrest
      · subst hx0
        exact le_trans (updateBest_le g x.decision acc) (selectBestAux_snd_ge g _ _)
      · by_cases hdec : x.decision = wd.decision
        · rw [hdec]
          exact le_trans (updateBest_le g wd.decision acc) (selectBestAux_snd_ge g _ _)
        · exact ih x (List.mem_filter.mpr ⟨hxrest, by simpa using hdec⟩)

lemma selectBestAux_fst_cases [DecidableEq D] (g : D → ℚ) (l : List (WeightedDecision D))
    (acc : Option D × ℚ) :
    (selectBestAux g l acc = acc) ∨
      (∃ b, (selectBestAux g l acc).1 = some b ∧ (selectBestAux g l acc).2 = g b ∧
        ∃ x ∈ l, x.decision = b) := by
  induction l, acc using selectBestAux.induct g with
  | case1 acc => left; simp [selectBestAux]
  | case2 wd rest acc ih =>
      rw [selectBestAux]
      rcases ih with ih | ih
      · rw [ih]
        rcases updateBest_cases g wd.decision acc with hupd | ⟨hupd, _⟩
        · left; exact hupd
        · right
          exact ⟨wd.decision, by rw [hupd], by rw [hupd], wd, List.mem_cons_self _ _, rfl⟩
      · right
        obtain ⟨b, h1, h2, x, hx, hxd⟩ := ih
        exact ⟨b, h1, h2, x, List.mem_cons_of_mem _ (List.mem_of_mem_filter hx), hxd⟩

lemma selectBestAux_changed [DecidableEq D] (g : D → ℚ) (l : List (WeightedDecision D))
    (acc : Option D × ℚ) :
    (selectBestAux g l acc).1 = acc.1 ∨ acc.2 < (selectBestAux g l acc).2 := by
  induction l, acc using selectBestAux.induct g with
  | case1 acc => left; simp [selectBestAux]
  | case2 wd rest acc ih =>
      rw [selectBestAux]
      rcases updateBest_cases g wd.decision acc with hupd | ⟨hupd, hlt⟩
      · rw [hupd] at ih ⊢; exact ih
      · right
        calc acc.2 < g wd.decision := hlt
        _ ≤ (updateBest g wd.decision acc).2 := updateBest_le g _ _
        _ ≤ _ := selectBestAux_snd_ge g _ _

lemma precedesB_of_filter [DecidableEq D] {b d w : D} (hb : ¬ w = b) (hd : ¬ w = d)
    (l : List (WeightedDecision D))
    (h : precedesB b d (l.filter (fun x => ¬ x.decision = w)) = true) :
    precedesB b d l = true := by
  induction l with
  | nil => simpa using h
  | cons x rest ih =>
      by_cases hxw : x.decision = w
      · have heq : (x :: rest).filter (fun y => ¬ y.decision = w) =
            rest.filter (fun y => ¬ y.decision = w) := by
          simp [List.filter_cons, hxw]
        rw [heq] at h
        rw [precedesB]
        rw [if_neg (by rw [hxw]; exact hb), if_neg (by rw [hxw]; exact hd)]
        exact ih h
      · have heq : (x :: rest).filter (fun y => ¬ y.decision = w) =
            x :: rest.filter (fun y => ¬ y.decision = w) := by
          simp [List.filter_cons, hxw]
        rw [heq, precedesB] at h
        rw [precedesB]
        by_cases hxb : x.decision = b
        · rw [if_pos hxb]
        · rw [if_neg hxb] at h ⊢
          by_cases hxd : x.decision = d
          · rw [if_pos hxd] at h; exact absurd h (by simp)
          · rw [if_neg hxd] at h ⊢; exact ih h

lemma selectBestAux_tiebreak [DecidableEq D] (g : D → ℚ) (l : List (WeightedDecision D))
    (acc : Option D × ℚ) :
    ∀ b d, (selectBestAux g l acc).1 = some b →
      (∃ x ∈ l, x.decision = d) → g d = (selectBestAux g l acc).2 → ¬ d = b →
      precedesB b d l = true ∨ acc.1 = some b := by
  induction l, acc using selectBestAux.induct g with
  | case1 acc =>
      intro b d hb hd hg hne
      right; simpa [selectBestAux] using hb
  | case2 wd rest acc ih =>
      intro b d hb hd hg hne
      rw [selectBestAux] at hb hg
      by_cases hdw : d = wd.decision
      · subst hdw
        rcases updateBest_cases g wd.decision acc with hupd | ⟨hupd, hlt⟩
        · rw [hupd] at hb hg
          rcases selectBestAux_changed g
              (rest.filter (fun x => ¬ x.decision = wd.decision)) acc with hcase | hcase
          · right; rw [hb] at hcase; exact hcase.symm
          · have hle : g wd.decision ≤ acc.2 := by
              have hub := updateBest_le g wd.decision acc
              rw [hupd] at hub; exact hub
            rw [← hg] at hcase
            exact absurd (lt_of_le_of_lt hle hcase) (lt_irrefl _)
        · rw [hupd] at hb hg
          rcases selectBestAux_changed g
              (rest.filter (fun x => ¬ x.decision = wd.decision))
              (some wd.decision, g wd.decision) with hcase | hcase
          · rw [hb] at hcase
            exact absurd (Option.some.inj hcase).symm hne
          · simp only at hcase
            rw [← hg] at hcase
            exact absurd hcase (lt_irrefl _)
      · obtain ⟨x, hx, hxd⟩ := hd
        rcases List.mem_cons.mp hx with hx0 | hxrest
        · subst hx0; exact absurd hxd.symm hdw
        by_cases hwb : wd.decision = b
        · left; rw [precedesB, if_pos hwb]
        · have hxf : x ∈ rest.filter (fun y => ¬ y.decision = wd.decision) :=
            List.mem_filter.mpr ⟨hxrest, by
              simp only [decide_eq_true_eq]
              rw [hxd]; exact fun hh => hdw hh⟩
          have hres := ih b d hb ⟨x, hxf, hxd⟩ hg hne
          rcases hres with hpre | hacc
          · left
            rw [precedesB, if_neg hwb, if_neg (fun hh => hdw hh.symm)]
            exact precedesB_of_filter hwb (fun hh => hdw hh.symm) rest hpre
          · rcases updateBest_cases g wd.decision acc with hupd | ⟨hupd, _⟩
            · rw [hupd] at hacc; right; exact hacc
            · rw [hupd] at hacc
              exact absurd (Option.some.inj hacc) hwb

lemma groupWeight_nonneg [DecidableEq D] (l : List (WeightedDecision D)) (d : D)
    (hw : ∀ wd ∈ l, 0 ≤ wd.weight) : 0 ≤ groupWeight l d := by
  refine List.sum_nonneg ?_
  intro x hx
  obtain ⟨wd, hwd, rfl⟩ := List.mem_map.mp hx
  exact hw wd (List.mem_of_mem_filter hwd)

lemma groupWeight_le_totalWeight [DecidableEq D] (l : List (WeightedDecision D)) (d : D)
    (hw : ∀ wd ∈ l, 0 ≤ wd.weight) : groupWeight l d ≤ totalWeight l := by
  induction l with
  | nil => simp [groupWeight, totalWeight]
  | cons x rest ih =>
      have hx0 : 0 ≤ x.weight := hw x (List.mem_cons_self _ _)
      have ihr := ih (fun wd h => hw wd (List.mem_cons_of_mem _ h))
      by_cases hxd : x.decision = d
      · have h1 : groupWeight (x :: rest) d = x.weight + groupWeight rest d := by
          simp [groupWeight, List.filter_cons, hxd]
        have h2 : totalWeight (x :: rest) = x.weight + totalWeight rest := by
          simp [totalWeight]
        rw [h1, h2]
        linarith
      · have h1 : groupWeight (x :: rest) d = groupWeight rest d := by
          simp [groupWeight, List.filter_cons, hxd]
        have h2 : totalWeight (x :: rest) = x.weight + totalWeight rest := by
          simp [totalWeight]
        rw [h1, h2]
        linarith

lemma groupWeight_pos [DecidableEq D] (l : List (WeightedDecision D))
    (wd : WeightedDecision D) (hmem : wd ∈ l) (hpos : 0 < wd.weight)
    (hw : ∀ x ∈ l, 0 ≤ x.weight) : 0 < groupWeight l wd.decision := by
  induction l with
  | nil => simp at hmem
  | cons x rest ih =>
      have hrest_nonneg : 0 ≤ groupWeight rest wd.decision :=
        groupWeight_nonneg rest wd.decision (fun y h => hw y (List.mem_cons_of_mem _ h))
      by_cases hxd : x.decision = wd.decision
      · have heq : groupWeight (x :: rest) wd.decision =
            x.weight + groupWeight rest wd.decision := by
          simp [groupWeight, List.filter_cons, hxd]
        rw [heq]
        rcases List.mem_cons.mp hmem with hx0 | hxrest
        · rw [← hx0]; linarith
        · have hgt := ih hxrest (fun y h => hw y (List.mem_cons_of_mem _ h))
          have hx0 : 0 ≤ x.weight := hw x (List.mem_cons_self _ _)
          linarith
      · have heq : groupWeight (x :: rest) wd.decision = groupWeight rest wd.decision := by
          simp [groupWeight, List.filter_cons, hxd]
        rw [heq]
        rcases List.mem_cons.mp hmem with hx0 | hxrest
        · exact absurd (by rw [hx0]) hxd
        · exact ih hxrest (fun y h => hw y (List.mem_cons_of_mem _ h))

lemma find_consensus_of_selectBest_some [DecidableEq D] {l : List (WeightedDecision D)}
    {b : D} {m : ℚ} (h : selectBest l = (some b, m)) :
    find_consensus_decision l =
      ⟨some b, if 0 < totalWeight l then m / totalWeight l else 0,
        l.filter (fun wd => wd.decision = b),
        l.filter (fun wd => ¬ wd.decision = b),
        (if 0 < totalWeight l then m / totalWeight l else 0) *
          (l.filter (fun wd => wd.decision = b)).length / l.length⟩ := by
  unfold find_consensus_decision
  rw [h]

lemma find_consensus_of_selectBest_none [DecidableEq D] {l : List (WeightedDecision D)}
    {m : ℚ} (h : selectBest l = (none, m)) :
    find_consensus_decision l = ⟨none, 0, [], [], 0⟩ := by
  unfold find_consensus_decision
  rw [h]

/-- **C3 (amended).** Decision-phase consensus, for candidate lists whose
weights (rolling success rates) are nonnegative: when some candidate
carries positive weight a winning group exists; and whenever a winner `b`
is returned, (i) its group's total weight (the sum of its contributing
agents' success-rate weights) is greatest among all candidate groups,
(ii) the returned confidence equals winningWeight / totalWeight over all
candidates, and (iii) a tied distinct group loses to `b`, whose earliest
contributing agent was registered strictly earlier. The amendment: when
every candidate group's total weight is 0 the strict-comparison loop of
`_find_consensus_decision` selects no group at all (see the
counterexample), so the claim holds only given some positive weight. -/
theorem decision_consensus_weighted (D : Type) [DecidableEq D]
    (l : List (WeightedDecision D)) (hw : ∀ wd ∈ l, 0 ≤ wd.weight) :
    ((∃ wd ∈ l, 0 < wd.weight) →
        ∃ b, (find_consensus_decision l).decision = some b) ∧
      (∀ b, (find_consensus_decision l).decision = some b →
        (∀ wd ∈ l, groupWeight l wd.decision ≤ groupWeight l b) ∧
        (find_consensus_decision l).confidence = groupWeight l b / totalWeight l ∧
        (∀ wd ∈ l, groupWeight l wd.decision = groupWeight l b →
          ¬ wd.decision = b → precedesB b wd.decision l = true)) := by
  have hsel : selectBest l = selectBestAux (groupWeight l) l (none, 0) := rfl
  constructor
  · rintro ⟨wd, hmem, hpos⟩
    have hgw : 0 < groupWeight l wd.decision := groupWeight_pos l wd hmem hpos hw
    have hle : groupWeight l wd.decision ≤ (selectBest l).2 := by
      rw [hsel]; exact selectBestAux_le (groupWeight l) l (none, 0) wd hmem
    rcases selectBestAux_fst_cases (groupWeight l) l (none, 0) with hc | ⟨b, hb1, _, _⟩
    · exfalso
      have hz : (selectBest l).2 = 0 := by rw [hsel, hc]
      rw [hz] at hle
      linarith
    · refine ⟨b, ?_⟩
      have hb1 : (selectBest l).1 = some b := by rw [hsel]; exact hb1
      have hsb : selectBest l = (some b, (selectBest l).2) := by
        rw [← hb1]
      rw [find_consensus_of_selectBest_some hsb]
  · intro b hb
    rcases hsb : selectBest l with ⟨o, m⟩
    cases o with
    | none =>
        rw [find_consensus_of_selectBest_none hsb] at hb
        exact absurd hb (by simp)
    | some bb =>
        rw [find_consensus_of_selectBest_some hsb] at hb
        simp only at hb
        have hbb : bb = b := Option.some.inj hb
        subst hbb
        have hfst : (selectBestAux (groupWeight l) l (none, 0)).1 = some bb := by
          rw [← hsel, hsb]
        have hm : m = groupWeight l bb := by
          rcases selectBestAux_fst_cases (groupWeight l) l (none, 0) with hc | ⟨b2, h1, h2, _⟩
          · rw [← hsel, hsb] at hc
            exact absurd (congrArg Prod.fst hc) (by simp)
          · have hb2 : b2 = bb := Option.some.inj (h1.symm.trans hfst)
            subst hb2
            rw [← hsel, hsb] at h2
            exact h2
        have hmax : ∀ wd ∈ l, groupWeight l wd.decision ≤ groupWeight l bb := by
          intro wd hmem
          have := selectBestAux_le (groupWeight l) l (none, 0) wd hmem
          rw [← hsel, hsb] at this
          rw [← hm]
          exact this
        have hpos_m : 0 < m := by
          rcases selectBestAux_changed (groupWeight l) l (none, 0) with hc | hc
          · rw [← hsel, hsb] at hc
            exact absurd hc (by simp)
          · rw [← hsel, hsb] at hc
            exact hc
        have htot : 0 < totalWeight l := by
          have hle := groupWeight_le_totalWeight l bb hw
          rw [← hm] at hle
          linarith
        refine ⟨hmax, ?_, ?_⟩
        · rw [find_consensus_of_selectBest_some hsb]
          simp only [if_pos htot]
          rw [hm]
        · intro wd hmem heqw hne
          have htb := selectBestAux_tiebreak (groupWeight l) l (none, 0) bb wd.decision
            hfst ⟨wd, hmem, rfl⟩ (by rw [← hsel, hsb]; rw [heqw, hm]) hne
          rcases htb with htb | htb
          · exact htb
          · exact absurd htb (by simp)

/-- Counterexample for **C3** as stated: with two candidate groups both of
total weight 0 (agents whose rolling success rate is 0), the groups tie at
the maximal total weight, yet `_find_consensus_decision`'s strictly-greater
comparison against the initial `max_weight = 0` selects no group: the
returned decision is `None`, not the earliest-registered candidate. -/
theorem decision_consensus_zero_weight_counterexample :
    (find_consensus_decision
        ([⟨"agent_a", 0, 0⟩, ⟨"agent_b", 1, 0⟩] : List (WeightedDecision ℕ))).decision
        = none ∧
      groupWeight ([⟨"agent_a", 0, 0⟩, ⟨"agent_b", 1, 0⟩] : List (WeightedDecision ℕ)) 0 =
        groupWeight ([⟨"agent_a", 0, 0⟩, ⟨"agent_b", 1, 0⟩] : List (WeightedDecision ℕ)) 1 ∧
      ([⟨"agent_a", 0, 0⟩, ⟨"agent_b", 1, 0⟩] : List (WeightedDecision ℕ)) ≠ [] := by
  refine ⟨?_, ?_, ?_⟩
  · simp [find_consensus_decision, selectBest, selectBestAux, updateBest, groupWeight,
      totalWeight, List.filter]
  · simp [groupWeight, List.filter]
  · simp

/-- Witness for `decision_consensus_weighted`: two agents with success rate
1/2 voting for distinct outcomes 0 and 1; the tie is broken in favour of
outcome 0, the decision of the earlier-registered agent, with confidence
(1/2)/1. -/
theorem decision_consensus_weighted_witness :
    (∀ wd ∈ ([⟨"agent_a", 0, 1/2⟩, ⟨"agent_b", 1, 1/2⟩] : List (WeightedDecision ℕ)),
        0 ≤ wd.weight) ∧
      (find_consensus_decision
          ([⟨"agent_a", 0, 1/2⟩, ⟨"agent_b", 1, 1/2⟩] : List (WeightedDecision ℕ))).confidence
        = groupWeight ([⟨"agent_a", 0, 1/2⟩, ⟨"agent_b", 1, 1/2⟩] :
            List (WeightedDecision ℕ)) 0 /
          totalWeight ([⟨"agent_a", 0, 1/2⟩, ⟨"agent_b", 1, 1/2⟩] :
            List (WeightedDecision ℕ)) := by
  have hw : ∀ wd ∈ ([⟨"agent_a", 0, 1/2⟩, ⟨"agent_b", 1, 1/2⟩] :
      List (WeightedDecision ℕ)), 0 ≤ wd.weight := by
    intro wd hwd
    fin_cases hwd <;> norm_num
  refine ⟨hw, ?_⟩
  have hdec : (find_consensus_decision
      ([⟨"agent_a", 0, 1/2⟩, ⟨"agent_b", 1, 1/2⟩] : List (WeightedDecision ℕ))).decision
      = some 0 := by
    simp [find_consensus_decision, selectBest, selectBestAux, updateBest, groupWeight,
      totalWeight, List.filter]
  exact ((decision_consensus_weighted ℕ _ hw).2 0 hdec).2.1

/-- **C10.** With no candidate decisions at all, `_aggregate_decisions`
returns the defined default `AIDecision`: primary decision `None`,
confidence 0, empty supporting evidence and quality score 0 (total
function, no error raised). -/
theorem aggregate_decisions_empty_default (D : Type) [DecidableEq D]
    (metrics : String → ℚ) :
    aggregate_decisions metrics ([] : List (String × D)) = ⟨none, 0, [], [], 0⟩ := rfl

lemma dedupAux_cons_none {p : ProfileData} (h : profileKey p = none)
    (seen : List String) (rest : List ProfileData) :
    dedupAux seen (p :: rest) = dedupAux seen rest := by
  rw [dedupAux, h]

lemma dedupAux_cons_seen {p : ProfileData} {k : String} (h : profileKey p = some k)
    {seen : List String} (hmem : k ∈ seen) (rest : List ProfileData) :
    dedupAux seen (p :: rest) = dedupAux seen rest := by
  rw [dedupAux, h]
  exact if_pos hmem

lemma dedupAux_cons_new {p : ProfileData} {k : String} (h : profileKey p = some k)
    {seen : List String} (hmem : ¬ k ∈ seen) (rest : List ProfileData) :
    dedupAux seen (p :: rest) = p :: dedupAux (k :: seen) rest := by
  rw [dedupAux, h]
  exact if_neg hmem

lemma dedupAux_drop (p : ProfileData) (ys : List ProfileData) :
    ∀ (zs : List ProfileData) (seen : List String),
      (profileKey p = none ∨ ∃ k, profileKey p = some k ∧ k ∈ seen) →
      dedupAux seen (ys ++ p :: zs) = dedupAux seen (ys ++ zs) := by
  induction ys with
  | nil =>
      intro zs seen h
      simp only [List.nil_append]
      rcases h with h | ⟨k, hk, hmem⟩
      · exact dedupAux_cons_none h seen zs
      · exact dedupAux_cons_seen hk hmem zs
  | cons q ys ih =>
      intro zs seen h
      simp only [List.cons_append]
      cases hq : profileKey q with
      | none =>
          rw [dedupAux_cons_none hq, dedupAux_cons_none hq]
          exact ih zs seen h
      | some kq =>
          by_cases hmem : kq ∈ seen
          · rw [dedupAux_cons_seen hq hmem, dedupAux_cons_seen hq hmem]
            exact ih zs seen h
          · rw [dedupAux_cons_new hq hmem, dedupAux_cons_new hq hmem]
            congr 1
            apply ih
            rcases h with h | ⟨k, hk, hkm⟩
            · left; exact h
            · right; exact ⟨k, hk, List.mem_cons_of_mem _ hkm⟩

/-- **C2.** `_deduplicate_profiles` is idempotent with respect to
duplicate observations: a list containing the identical profile `p` twice
deduplicates to exactly the same result list as the list containing `p`
once, for every position of the two occurrences. Duplicates are keyed by
profile URL with the lowercased-full-name fallback when the URL is falsy
(`profileKey`); a second identical occurrence necessarily carries an
already-seen key (or no key at all) and is dropped without affecting the
seen-set, so the merged `CorrelatedIdentity` built from the result is the
same. -/
theorem dedup_duplicate_observation (xs ys zs : List ProfileData) (p : ProfileData) :
    deduplicate_profiles (xs ++ p :: (ys ++ p :: zs)) =
      deduplicate_profiles (xs ++ p :: (ys ++ zs)) := by
  unfold deduplicate_profiles
  have main : ∀ (xs : List ProfileData) (seen : List String),
      dedupAux seen (xs ++ p :: (ys ++ p :: zs)) =
        dedupAux seen (xs ++ p :: (ys ++ zs)) := by
    intro xs
    induction xs with
    | nil =>
        intro seen
        simp only [List.nil_append]
        cases hk : profileKey p with
        | none =>
            rw [dedupAux_cons_none hk, dedupAux_cons_none hk]
            exact dedupAux_drop p ys zs seen (Or.inl hk)
        | some k =>
            by_cases hmem : k ∈ seen
            · rw [dedupAux_cons_seen hk hmem, dedupAux_cons_seen hk hmem]
              exact dedupAux_drop p ys zs seen (Or.inr ⟨k, hk, hmem⟩)
            · rw [dedupAux_cons_new hk hmem, dedupAux_cons_new hk hmem]
              congr 1
              exact dedupAux_drop p ys zs (k :: seen)
                (Or.inr ⟨k, hk, List.mem_cons_self _ _⟩)
    | cons q xs ih =>
        intro seen
        simp only [List.cons_append]
        cases hq : profileKey q with
        | none =>
            rw [dedupAux_cons_none hq, dedupAux_cons_none hq]
            exact ih seen
        | some kq =>
            by_cases hmem : kq ∈ seen
            · rw [dedupAux_cons_seen hq hmem, dedupAux_cons_seen hq hmem]
              exact ih seen
            · rw [dedupAux_cons_new hq hmem, dedupAux_cons_new hq hmem]
              congr 1
              exact ih (kq :: seen)
  exact main xs []

lemma check_agent_health_persists (now nowLater : ℤ) (p : AgentPerformance)
    (hle : now ≤ nowLater) (hf : check_agent_health now p = false) :
    check_agent_health nowLater p = false := by
  unfold check_agent_health at hf ⊢
  by_cases ht : p.success_rate < 7/10 ∨ p.avg_response_time > 30 ∨ p.error_rate > 3/10
  · rw [if_pos ht]
  · rw [if_neg ht] at hf ⊢
    cases hls : p.last_success with
    | none => rw [hls] at hf; simp at hf
    | some t =>
        rw [hls] at hf
        have hf2 : (if now - t > 3600 ∧ 0 < p.total_requests then false else true)
            = false := hf
        show (if nowLater - t > 3600 ∧ 0 < p.total_requests then false else true) = false
        by_cases hc : now - t > 3600 ∧ 0 < p.total_requests
        · have hc2 : nowLater - t > 3600 ∧ 0 < p.total_requests :=
            ⟨by linarith [hc.1], hc.2⟩
          rw [if_pos hc2]
        · rw [if_neg hc] at hf2
          simp at hf2

/-- **C5.** Code-bug exhibit: the agent with success rate 1/2 (below the
0.7 threshold) is judged failing by `_check_agent_health`, yet after the
monitoring cycle the `active_agents` entry still holds the *old* agent
with `FAILING` status and the old metrics — its success rate is still 1/2,
not the reset optimistic prior 1.0 — because `_replace_failing_agent`
reads `old_agent.config`, an attribute the `GeneratedAgent` dataclass does
not define, so every replacement attempt dies with a swallowed
`AttributeError` before a fresh agent is constructed. -/
theorem failing_agent_never_replaced :
    check_agent_health 5000 ⟨1/2, 10, 1/10, some 0, 10⟩ = false ∧
      monitor_agent_health 5000
          [("linkedin_a1b2", ⟨"linkedin_a1b2", "linkedin",
            ⟨1/2, 10, 1/10, some 0, 10⟩, .healthy, "cfg0"⟩)]
        = [("linkedin_a1b2", ⟨"linkedin_a1b2", "linkedin",
            ⟨1/2, 10, 1/10, some 0, 10⟩, .failing, "cfg0"⟩)] ∧
      ¬ (⟨1/2, 10, 1/10, some 0, 10⟩ : AgentPerformance).success_rate = 1 ∧
      (freshPerformance 5000).success_rate = 1 := by
  refine ⟨by norm_num [check_agent_health], ?_, by norm_num, by norm_num [freshPerformance]⟩
  norm_num [monitor_agent_health, monitorStep, check_agent_health]

/-- **C6.** Health states only move forward: once a source fails
`_check_agent_health` its (never self-healing) metrics keep failing it at
every later time; from any state satisfying the reachable-state invariant
`ReachableHealth` (all states produced by `generate_agent` and by
monitoring cycles satisfy it), a monitoring step never lowers the status
rank along Healthy → Degraded → Failing → Offline; the invariant is
preserved by every step; and freshly generated sources start `HEALTHY`.
The only exit from `FAILING` foreseen by the source is the metrics reset
of a successful replacement, which resets `success_rate` to the optimistic
prior — no other backward transition exists. -/
theorem health_state_forward_only :
    (∀ (now nowLater : ℤ) (p : AgentPerformance), now ≤ nowLater →
        check_agent_health now p = false → check_agent_health nowLater p = false) ∧
      (∀ (now : ℤ) (a : GeneratedAgent), ReachableHealth now a →
        a.status.rank ≤ (monitorStep now a).status.rank) ∧
      (∀ (now nowLater : ℤ) (a : GeneratedAgent), now ≤ nowLater →
        ReachableHealth now a → ReachableHealth nowLater (monitorStep now a)) ∧
      (∀ (platform chash : String) (now : ℤ),
        ReachableHealth now (generate_agent platform chash now)) := by
  refine ⟨check_agent_health_persists, ?_, ?_, ?_⟩
  · intro now a hinv
    rcases hinv with hh | ⟨hf, hchk⟩
    · rw [hh]
      exact Nat.zero_le _
    · rw [hf]
      unfold monitorStep
      rw [hchk]
      simp [AgentStatus.rank]
  · intro now nowLater a hle hinv
    by_cases hc : check_agent_health now a.performance = true
    · have hstep : monitorStep now a = { a with status := .healthy } := by
        unfold monitorStep
        rw [hc]
        simp
      left
      rw [hstep]
    · have hcf : check_agent_health now a.performance = false := by
        revert hc
        cases check_agent_health now a.performance <;> simp
      have hstep : monitorStep now a = { a with status := .failing } := by
        unfold monitorStep
        rw [hcf]
        simp
      right
      rw [hstep]
      exact ⟨rfl, check_agent_health_persists now nowLater a.performance hle hcf⟩
  · intro platform chash now
    left
    rfl

/-- Witness for `health_state_forward_only`: a concrete source whose
success rate 1/2 fails the health check at time 0 keeps failing it at time
10, satisfies the invariant in the `FAILING` state, and the monitoring
step does not lower its status rank. -/
theorem health_state_forward_only_witness :
    ((0 : ℤ) ≤ 10 ∧
        check_agent_health 10 ⟨1/2, 10, 1/10, some 0, 10⟩ = false) ∧
      (⟨"x1", "linkedin", ⟨1/2, 10, 1/10, some 0, 10⟩,
          AgentStatus.failing, "c"⟩ : GeneratedAgent).status.rank ≤
        (monitorStep 0 ⟨"x1", "linkedin", ⟨1/2, 10, 1/10, some 0, 10⟩,
          AgentStatus.failing, "c"⟩).status.rank := by
  have h := health_state_forward_only
  constructor
  · exact ⟨by norm_num, h.1 0 10 ⟨1/2, 10, 1/10, some 0, 10⟩ (by norm_num)
      (by norm_num [check_agent_health])⟩
  · exact h.2.1 0 ⟨"x1", "linkedin", ⟨1/2, 10, 1/10, some 0, 10⟩,
      AgentStatus.failing, "c"⟩ (Or.inr ⟨rfl, by norm_num [check_agent_health]⟩)

lemma mean_mem_unitInterval (l : List ℚ) (hne : l ≠ [])
    (h : ∀ x ∈ l, 0 ≤ x ∧ x ≤ 1) :
    0 ≤ l.sum / l.length ∧ l.sum / l.length ≤ 1 := by
  have hlen : 0 < (l.length : ℚ) := by
    have hp := List.length_pos.mpr hne
    exact_mod_cast hp
  constructor
  · exact div_nonneg (List.sum_nonneg (fun x hx => (h x hx).1)) (le_of_lt hlen)
  · rw [div_le_one hlen]
    have hb := List.sum_le_card_nsmul l 1 (fun x hx => (h x hx).2)
    simpa using hb

lemma mem_ite_singleton {c : Prop} [Decidable c] {x a : ℚ}
    (h : x ∈ (if c then [a] else [])) : x = a := by
  split at h
  · simpa using h
  · simp at h

lemma recencyScore_mem {d : ℤ} (hd : 0 ≤ d) :
    0 ≤ recencyScore d ∧ recencyScore d ≤ 1 := by
  have hq : (0 : ℚ) ≤ (d : ℚ) / 365 := by
    apply div_nonneg _ (by norm_num)
    exact_mod_cast hd
  exact ⟨le_max_left 0 _, max_le (by norm_num) (by linarith)⟩

lemma activityRecencySpec_mem {d : ℤ} (hd : 0 ≤ d) :
    0 ≤ activityRecencySpec d ∧ activityRecencySpec d ≤ 1 := by
  have hq : (0 : ℚ) ≤ (d : ℚ) / 365 := by
    apply div_nonneg _ (by norm_num)
    exact_mod_cast hd
  exact ⟨le_max_left 0 _, max_le (by norm_num) (by linarith)⟩

lemma platformWeights_entries_mem :
    ∀ q ∈ platformWeights, 0 ≤ q.2 ∧ q.2 ≤ 1 := by
  intro q hq
  fin_cases hq <;> norm_num

lemma platformWeight_mem (s : String) :
    0 ≤ platformWeight s ∧ platformWeight s ≤ 1 := by
  unfold platformWeight
  cases hf : platformWeights.find? (fun q => q.1 = s) with
  | none => norm_num
  | some q => exact platformWeights_entries_mem q (List.mem_of_find?_eq_some hf)

lemma enhanced_data_completeness_mem (p : ProfileData) :
    0 ≤ enhanced_data_completeness p ∧ enhanced_data_completeness p ≤ 1 := by
  unfold enhanced_data_completeness
  constructor
  · apply le_min (by norm_num)
    have hcp : (0 : ℚ) ≤
        ([p.full_name, p.email, p.phone, p.location, p.company,
          p.job_title, p.bio, p.profile_picture].countP optTruthy : ℚ) / 8 := by
      positivity
    split_ifs <;> linarith
  · exact min_le_left 1 _

lemma confidenceFactors_bounds (p : BaseProfileInfo)
    (hdays : ∀ d, p.last_activity_days_ago = some d → 0 ≤ d) :
    ∀ x ∈ confidenceFactors p, 0 ≤ x ∧ x ≤ 1 := by
  intro x hx
  simp only [confidenceFactors, List.append_assoc, List.mem_append] at hx
  rcases hx with hx | hx | hx | hx
  · rw [mem_ite_singleton hx]; norm_num
  · rw [mem_ite_singleton hx]; norm_num
  · rw [List.mem_singleton.mp hx]
    have hcount : ([p.full_name, p.location, p.company, p.profile_picture].countP
        optTruthy) ≤ 4 := List.countP_le_length _
    have hc0 : (0 : ℚ) ≤ ([p.full_name, p.location, p.company,
        p.profile_picture].countP optTruthy : ℚ) := by positivity
    have hc4 : (([p.full_name, p.location, p.company, p.profile_picture].countP
        optTruthy : ℕ) : ℚ) ≤ 4 := by exact_mod_cast hcount
    constructor
    · positivity
    · nlinarith
  · revert hx
    cases hla : p.last_activity_days_ago with
    | none => intro hx; simp at hx
    | some d =>
        intro hx
        rw [List.mem_singleton.mp hx]
        have hd := recencyScore_mem (hdays d hla)
        constructor
        · nlinarith [hd.1]
        · nlinarith [hd.1, hd.2]

lemma platformConfidenceFactors_bounds (pictureScore platformBoost : ℚ)
    (p : ProfileData)
    (hdays : ∀ d, p.last_activity_days_ago = some d → 0 ≤ d)
    (hps0 : 0 ≤ pictureScore) (hps1 : pictureScore ≤ 1)
    (hpb0 : 0 ≤ platformBoost) (hpb1 : platformBoost ≤ 1) :
    ∀ x ∈ platformConfidenceFactors pictureScore platformBoost p, 0 ≤ x ∧ x ≤ 1 := by
  intro x hx
  simp only [platformConfidenceFactors, List.append_assoc, List.mem_append] at hx
  rcases hx with hx | hx | hx | hx | hx | hx
  · rw [List.mem_singleton.mp hx]
    exact platformWeight_mem p.platform
  · rw [List.mem_singleton.mp hx]
    have hc := enhanced_data_completeness_mem p
    constructor
    · nlinarith [hc.1]
    · nlinarith [hc.1, hc.2]
  · revert hx
    cases hla : p.last_activity_days_ago with
    | none => intro hx; simp at hx
    | some d =>
        intro hx
        rw [List.mem_singleton.mp hx]
        have hd := activityRecencySpec_mem (hdays d hla)
        constructor
        · nlinarith [hd.1]
        · nlinarith [hd.1, hd.2]
  · rw [mem_ite_singleton hx]; norm_num
  · rw [mem_ite_singleton hx]
    constructor
    · nlinarith
    · nlinarith
  · rw [List.mem_singleton.mp hx]
    exact ⟨hpb0, hpb1⟩

lemma confidenceFactors_ne_nil (p : BaseProfileInfo) : confidenceFactors p ≠ [] := by
  apply List.ne_nil_of_mem
    (a := (([p.full_name, p.location, p.company, p.profile_picture].countP optTruthy :
      ℚ) / 4) * (6/10))
  simp [confidenceFactors]

lemma platformConfidenceFactors_ne_nil (ps pb : ℚ) (p : ProfileData) :
    platformConfidenceFactors ps pb p ≠ [] := by
  apply List.ne_nil_of_mem (a := platformWeight p.platform)
  simp [platformConfidenceFactors]

/-- Counterexample for **C1** as stated: `_calculate_confidence_score` on
a profile whose only datum is a `last_activity` timestamp 3650 days in the
future returns 11/4 > 1 — the recency factor `max(0, 1 - days/365)` is
clamped below but not above, so a future timestamp inflates the mean past
the claimed [0, 1] interval. -/
theorem base_confidence_exceeds_one_on_future_activity :
    calculate_confidence_score ⟨false, none, none, none, none, some (-3650)⟩ = 11/4 ∧
      ¬ calculate_confidence_score ⟨false, none, none, none, none, some (-3650)⟩ ≤ 1 := by
  have hev : calculate_confidence_score ⟨false, none, none, none, none, some (-3650)⟩
      = 11/4 := by
    norm_num [calculate_confidence_score, confidenceFactors, recencyScore, optTruthy,
      List.countP, List.countP.go]
  exact ⟨hev, by rw [hev]; norm_num⟩

/-- **C1 (amended).** Both embedded confidence-scoring functions return a
value in [0, 1] provided no profile carries a last-activity timestamp in
the future (age in days nonnegative) — the condition the counterexample
shows to be necessary — and, for the platform-specific function, provided
the picture-quality score and platform boost supplied by the helpers
missing from src are themselves scores in [0, 1]. Every factor entering
either mean then lies in [0, 1], and a mean of [0, 1] values (or the 0.3
fallback) stays in [0, 1]. -/
theorem confidence_scores_unit_interval :
    (∀ p : BaseProfileInfo,
        (∀ d, p.last_activity_days_ago = some d → 0 ≤ d) →
        0 ≤ calculate_confidence_score p ∧ calculate_confidence_score p ≤ 1) ∧
      (∀ (pictureScore platformBoost : ℚ) (p : ProfileData),
        (∀ d, p.last_activity_days_ago = some d → 0 ≤ d) →
        0 ≤ pictureScore → pictureScore ≤ 1 →
        0 ≤ platformBoost → platformBoost ≤ 1 →
        0 ≤ calculate_platform_specific_confidence pictureScore platformBoost p ∧
          calculate_platform_specific_confidence pictureScore platformBoost p ≤ 1) := by
  constructor
  · intro p hdays
    unfold calculate_confidence_score
    split_ifs with hlen
    · norm_num
    · exact mean_mem_unitInterval (confidenceFactors p) (confidenceFactors_ne_nil p)
        (confidenceFactors_bounds p hdays)
  · intro ps pb p hdays hps0 hps1 hpb0 hpb1
    unfold calculate_platform_specific_confidence
    exact mean_mem_unitInterval (platformConfidenceFactors ps pb p)
      (platformConfidenceFactors_ne_nil ps pb p)
      (platformConfidenceFactors_bounds ps pb p hdays hps0 hps1 hpb0 hpb1)

/-- Witness for `confidence_scores_unit_interval`: a verified base profile
active 30 days ago, and a complete LinkedIn profile with picture score 1/2
and boost 7/10, both score inside [0, 1]. -/
theorem confidence_scores_unit_interval_witness :
    (0 ≤ calculate_confidence_score
        ⟨true, some "Jane Doe", some "Berlin", none, none, some 30⟩ ∧
      calculate_confidence_score
        ⟨true, some "Jane Doe", some "Berlin", none, none, some 30⟩ ≤ 1) ∧
      (0 ≤ calculate_platform_specific_confidence (1/2) (7/10)
          ⟨"linkedin", PlatformCategory.professional, "https://linkedin.com/in/jd",
            some "jd", some "Jane Doe", some "jd@mail.com", none, some "Berlin",
            some "Acme", some "CTO", some "pic.jpg", some 30, some "bio", true⟩ ∧
        calculate_platform_specific_confidence (1/2) (7/10)
          ⟨"linkedin", PlatformCategory.professional, "https://linkedin.com/in/jd",
            some "jd", some "Jane Doe", some "jd@mail.com", none, some "Berlin",
            some "Acme", some "CTO", some "pic.jpg", some 30, some "bio", true⟩ ≤ 1) := by
  have h := confidence_scores_unit_interval
  constructor
  · exact h.1 ⟨true, some "Jane Doe", some "Berlin", none, none, some 30⟩
      (by intro d hd; cases hd; norm_num)
  · exact h.2 (1/2) (7/10) _ (by intro d hd; cases hd; norm_num)
      (by norm_num) (by norm_num) (by norm_num) (by norm_num)

/-- **C8.** The deception step of `process_email_enterprise`: a reported
overall deception risk strictly above 0.7 multiplies the correlation
confidence by 0.8 and records the deception flag; a risk of at most 0.7
leaves the result untouched. -/
theorem deception_penalty (risk : ℚ) (r : EnterpriseResult) :
    (risk > 7/10 →
        apply_deception_adjustment risk r = ⟨r.confidence_score * (8/10), true⟩) ∧
      (risk ≤ 7/10 → apply_deception_adjustment risk r = r) := by
  constructor
  · intro h
    unfold apply_deception_adjustment
    rw [if_pos h]
  · intro h
    unfold apply_deception_adjustment
    rw [if_neg (not_lt.mpr h)]

/-- Witness for `deception_penalty`: risk 0.8 scales confidence 1/2 to
2/5 and sets the flag; risk 1/2 leaves the result unchanged. -/
theorem deception_penalty_witness :
    ((8 : ℚ)/10 > 7/10 ∧
        apply_deception_adjustment (8/10) ⟨1/2, false⟩ = ⟨(1/2) * (8/10), true⟩) ∧
      ((1 : ℚ)/2 ≤ 7/10 ∧
        apply_deception_adjustment (1/2) ⟨1/2, false⟩ = ⟨1/2, false⟩) :=
  ⟨⟨by norm_num, (deception_penalty (8/10) ⟨1/2, false⟩).1 (by norm_num)⟩,
    ⟨by norm_num, (deception_penalty (1/2) ⟨1/2, false⟩).2 (by norm_num)⟩⟩

/-- **C4.** Code-bug exhibit: `analyze_digital_identity` gathers its
detectors with plain `asyncio.gather` (no `return_exceptions=True`), so a
single raising detector aborts the whole analysis. Concretely: the
shared-account detector emits an indicator and the timezone detector
raises; the analysis returns the propagated exception instead of the
remaining indicators, while the isolation semantics the spec requires
(`gatherIsolating`) would return exactly the surviving shared-account
indicator. -/
theorem analyze_aborts_on_single_detector_failure :
    analyze_digital_identity
        [Except.ok (detect_shared_accounts
            ["Generic username pattern: infoteam"] true 0 0),
          Except.error "TypeError: unsupported operand",
          Except.ok detect_profile_spoofing]
      = Except.error "TypeError: unsupported operand" ∧
      detect_shared_accounts ["Generic username pattern: infoteam"] true 0 0 ≠ [] ∧
      gatherIsolating
          [Except.ok (detect_shared_accounts
              ["Generic username pattern: infoteam"] true 0 0),
            Except.error "TypeError: unsupported operand",
            Except.ok detect_profile_spoofing]
        = detect_shared_accounts ["Generic username pattern: infoteam"] true 0 0 := by
  refine ⟨?_, ?_, ?_⟩
  · simp [analyze_digital_identity, gatherStrict]
  · rw [detect_shared_accounts,
      if_pos ⟨by simp [sharedAccountEvidence], by norm_num [sharedAccountConfidence]⟩]
    simp
  · simp [gatherIsolating, detect_profile_spoofing]

/-- **C9.** Every `DeceptionIndicator` emitted by any detector carries a
non-empty evidence list: the three implemented detectors guard their
single emission by `if evidence and confidence > threshold`, so the
emitted indicator's evidence is the accumulated non-empty list; the four
remaining detectors are stubs emitting nothing at all. -/
theorem emitted_indicators_have_evidence :
    (∀ (sp : List String) (mbp : Bool) (sv gs : ℕ),
        ∀ i ∈ detect_shared_accounts sp mbp sv gs, i.evidence ≠ []) ∧
      (∀ (tm : Bool) (aa : List String) (tc dst : Bool),
        ∀ i ∈ detect_timezone_manipulation tm aa tc dst, i.evidence ≠ []) ∧
      (∀ (ev ip cp : Bool),
        ∀ i ∈ detect_identity_fragmentation ev ip cp, i.evidence ≠ []) ∧
      detect_profile_spoofing = [] ∧
      detect_activity_anomalies = [] ∧
      detect_hardware_spoofing = [] ∧
      detect_behavioral_inconsistencies = [] := by
  refine ⟨?_, ?_, ?_, rfl, rfl, rfl, rfl⟩
  · intro sp mbp sv gs i hi
    rw [detect_shared_accounts] at hi
    split at hi
    · rename_i hcond
      rw [List.mem_singleton.mp hi]
      exact hcond.1
    · simp at hi
  · intro tm aa tc dst i hi
    rw [detect_timezone_manipulation] at hi
    split at hi
    · rename_i hcond
      rw [List.mem_singleton.mp hi]
      exact hcond.1
    · simp at hi
  · intro ev ip cp i hi
    rw [detect_identity_fragmentation] at hi
    split at hi
    · rename_i hcond
      rw [List.mem_singleton.mp hi]
      exact hcond.1
    · simp at hi

/-- Witness for `emitted_indicators_have_evidence`: the shared-account
detector, fed one suspicious username pattern and multiple behavioral
profiles, emits an indicator (confidence 0.7, severity HIGH) whose
evidence list is non-empty. -/
theorem emitted_indicators_have_evidence_witness :
    (⟨DeceptionType.shared_account, 7/10,
        ["Generic username pattern: infoteam",
          "Multiple distinct behavioral patterns detected"],
        "HIGH", 8/10⟩ : DeceptionIndicator) ∈
        detect_shared_accounts ["Generic username pattern: infoteam"] true 0 0 ∧
      (⟨DeceptionType.shared_account, 7/10,
        ["Generic username pattern: infoteam",
          "Multiple distinct behavioral patterns detected"],
        "HIGH", 8/10⟩ : DeceptionIndicator).evidence ≠ [] := by
  have hmem : (⟨DeceptionType.shared_account, 7/10,
      ["Generic username pattern: infoteam",
        "Multiple distinct behavioral patterns detected"],
      "HIGH", 8/10⟩ : DeceptionIndicator) ∈
      detect_shared_accounts ["Generic username pattern: infoteam"] true 0 0 := by
    rw [detect_shared_accounts,
      if_pos ⟨by simp [sharedAccountEvidence], by norm_num [sharedAccountConfidence]⟩]
    rw [List.mem_singleton]
    norm_num [sharedAccountEvidence, sharedAccountConfidence, calculateSeverity]
  exact ⟨hmem,
    emitted_indicators_have_evidence.1
      ["Generic username pattern: infoteam"] true 0 0 _ hmem⟩

end MailZilla
